import Mathlib

/-!
# AutoFill orchestration

A shallow embedding of `Core/Password/AutoFill/AutoFill.cpp`: the exception-list
check (`isStoringEnabled`, `blockStoringForUrl`), the form-capture routine
(`saveForm`) and the page-completion routine (`completePage`).

Collaborators whose code lives outside this file (the SQL layer, the password
manager, the page and its view) are represented by the values the orchestrator
reads from them and by the calls it issues to them.
-/

namespace Sn

/-! ## Data model -/

/-- Just the two accessors of a URL that `AutoFill` reads: `host()` and `toString()`. -/
structure QUrl where
  host : String
  toString : String
deriving DecidableEq

/-- Modelled from the spec: `PasswordEntry` is declared in `Password/PasswordManager.hpp`,
which is not part of the sources at hand. The spec lists host, username, password,
auxiliary form data and a last-used timestamp. A default-constructed entry has empty
strings and no last-used time recorded (`-1`). -/
structure PasswordEntry where
  host : String := ""
  username : String := ""
  password : String := ""
  data : String := ""
  updated : Int := -1
deriving DecidableEq

/-- Modelled from the spec: `PageFormData` (declared outside this file) is the transient
capture of a submitted form, with username, password and the raw post-data string. -/
structure PageFormData where
  username : String
  password : String
  postData : String
deriving DecidableEq

/-- One row of the table `autofill_exceptions`. The column `id` is the key of the table
(it is what `count(id)` counts) and `server` is the host string. -/
structure ExceptionRow where
  id : Nat
  server : String
deriving DecidableEq

/-- The exception table as the SQL layer presents it. `executes` tells whether a
statement run against it succeeds; when it does not, `query.next()` has no row. -/
structure ExceptionStore where
  rows : List ExceptionRow
  executes : Bool
deriving DecidableEq

/-- A prepared statement handed to the SQL layer. Only the insert of
`blockStoringForUrl` leaves the orchestrator this way. -/
inductive SqlQuery where
  | insertException (server : String)
deriving DecidableEq

/-- Result of `SELECT count(id) FROM autofill_exceptions WHERE server=?` followed by
`query.next()` and `query.value(0).toInt()`: `none` when there is no row to read,
otherwise the number of rows whose `server` is the bound value. Keys are compared as
strings, and the number of rows is taken as it is (a table small enough for an `int`). -/
def ExceptionStore.selectCount (db : ExceptionStore) (server : String) : Option Int :=
  if db.executes then
    some ((db.rows.filter (fun r => r.server == server)).length : Int)
  else
    none

/-- Effect of `INSERT INTO autofill_exceptions (server) VALUES (?)` once the SQL layer
has run it: one more row, whose key `rowid` is chosen by the database. -/
def ExceptionStore.exec (db : ExceptionStore) (rowid : Nat) : SqlQuery → ExceptionStore
  | .insertException server => { db with rows := db.rows ++ [⟨rowid, server⟩] }

/-- A write issued to the credential store. `saveForm` issues only `updateLastUsed`. -/
inductive StoreCall where
  | updateLastUsed (entry : PasswordEntry)
deriving DecidableEq

/-- Modelled from the spec: the password manager (`Password/PasswordManager.hpp`, not
part of the sources at hand) as the orchestrator uses it. `getEntries` is the read
`getEntries(url)`; `lastUsedStamp` is the last-used time that `updateLastUsed` leaves in
the entry it receives by reference (the spec: it refreshes "last used"). -/
structure PasswordManager where
  getEntries : QUrl → List PasswordEntry
  lastUsedStamp : PasswordEntry → Int

/-- The entry as `updateLastUsed(PasswordEntry&)` leaves it. -/
def PasswordManager.updateLastUsed (m : PasswordManager) (entry : PasswordEntry) :
    PasswordEntry :=
  { entry with updated := m.lastUsedStamp entry }

/-- The orchestrator object: its password manager and the cached flag `m_isStoring`. -/
structure AutoFill where
  m_manager : PasswordManager
  m_isStoring : Bool

/-! ## Exception list -/

/-- Transcription of `AutoFill::isStoringEnabled`. -/
def AutoFill.isStoringEnabled (af : AutoFill) (db : ExceptionStore) (url : QUrl) : Bool :=
  if !af.m_isStoring then
    false
  else
    let server := url.host
    let server := if server.isEmpty then url.toString else server
    match db.selectCount server with
    | none => false
    | some count => decide (count ≤ 0)

/-- Transcription of `AutoFill::blockStoringForUrl`: the statement passed to `execAsync`. -/
def AutoFill.blockStoringForUrl (url : QUrl) : SqlQuery :=
  let server := url.host
  let server := if server.isEmpty then url.toString else server
  SqlQuery.insertException server

/-- The spec's canonical host: the host component, or the full URL string when the
host component is empty. -/
def canonicalHost (u : QUrl) : String :=
  if u.host = "" then u.toString else u.host

/-! ## Credential store pass-throughs -/

/-- Transcription of `AutoFill::getFormData`: a pass-through read. -/
def AutoFill.getFormData (af : AutoFill) (url : QUrl) : List PasswordEntry :=
  af.m_manager.getEntries url

/-- Transcription of `AutoFill::isStored`. -/
def AutoFill.isStored (af : AutoFill) (db : ExceptionStore) (url : QUrl) : Bool :=
  if !af.isStoringEnabled db url then
    false
  else
    !(af.m_manager.getEntries url).isEmpty

/-! ## Pages, notifications, scripts -/

/-- The confirmation element built by `saveForm`: frame URL, submitted form, draft. -/
structure AutoFillNotification where
  frameUrl : QUrl
  formData : PageFormData
  updateData : PasswordEntry
deriving DecidableEq

/-- Script worlds of the engine (`QWebEngineScript::ScriptWorldId`). -/
inductive ScriptWorld where
  | MainWorld
  | ApplicationWorld
  | UserWorld
deriving DecidableEq

/-- What `AutoFill` does to a page: the notifications added to its view, in order, and
the `runJavaScript` requests issued on it, in order. -/
structure WebPage where
  notifications : List AutoFillNotification
  scripts : List (String × ScriptWorld)
deriving DecidableEq

/-- Effect of `page->view()->addNotification(notification)`. -/
def WebPage.addNotification (page : WebPage) (n : AutoFillNotification) : WebPage :=
  { page with notifications := page.notifications ++ [n] }

/-- Effect of `page->runJavaScript(script, world)`. -/
def WebPage.runJavaScript (page : WebPage) (script : String) (world : ScriptWorld) :
    WebPage :=
  { page with scripts := page.scripts ++ [(script, world)] }

/-! ## saveForm -/

/-- How the `foreach` of `saveForm` is left: by the `return` inside it, or by `break` or
exhaustion with the current `updateData`. Both carry the credential-store writes issued
so far. -/
inductive LoopExit where
  | returned (calls : List StoreCall)
  | finished (updateData : PasswordEntry) (calls : List StoreCall)
deriving DecidableEq

/-- The `foreach (const PasswordEntry& data, list)` of `AutoFill::saveForm`. -/
def AutoFill.saveFormLoop (af : AutoFill) (formData : PageFormData)
    (updateData : PasswordEntry) : List PasswordEntry → LoopExit
  | [] => LoopExit.finished updateData []
  | data :: list =>
    if data.username == formData.username then
      let updateData := data
      let call := StoreCall.updateLastUsed updateData
      let updateData := af.m_manager.updateLastUsed updateData
      if data.password == formData.password then
        -- `updateData.password.clear(); return;`
        LoopExit.returned [call]
      else
        let updateData := { updateData with username := formData.username }
        let updateData := { updateData with password := formData.password }
        let updateData := { updateData with data := formData.postData }
        -- `break;`
        LoopExit.finished updateData [call]
    else
      af.saveFormLoop formData updateData list

/-- What `saveForm` leaves behind: the page (with its view) and the writes issued to the
credential store. -/
structure SaveEffects where
  page : Option WebPage
  storeCalls : List StoreCall
deriving DecidableEq

/-- Transcription of `AutoFill::saveForm`. `privateBrowsing` is
`Application::instance()->privateBrowsing()`; a null `page` is `none`. -/
def AutoFill.saveForm (af : AutoFill) (privateBrowsing : Bool) (db : ExceptionStore)
    (page : Option WebPage) (frameUrl : QUrl) (formData : PageFormData) : SaveEffects :=
  if privateBrowsing || page.isNone then
    ⟨page, []⟩
  else if !af.isStoringEnabled db frameUrl then
    ⟨page, []⟩
  else
    let updateData : PasswordEntry := {}
    let exit :=
      if af.isStored db frameUrl then
        af.saveFormLoop formData updateData (af.getFormData frameUrl)
      else
        LoopExit.finished updateData []
    match exit with
    | LoopExit.returned calls => ⟨page, calls⟩
    | LoopExit.finished updateData calls =>
      let notification : AutoFillNotification := ⟨frameUrl, formData, updateData⟩
      ⟨page.map (fun p => p.addNotification notification), calls⟩

/-! ## completePage -/

/-- The single-quote character. -/
def quote : Char := Char.ofNat 39

/-- The backslash character. -/
def backslash : Char := Char.ofNat 92

/-- Replacement of every occurrence of the one-character text `before` by `after`, left
to right, the inserted text not being scanned again (`QString::replace(before, after)`
with a one-character `before`). -/
def replaceChar (before : Char) (after : List Char) : List Char → List Char
  | [] => []
  | c :: cs =>
    if c = before then after ++ replaceChar before after cs
    else c :: replaceChar before after cs

/-- The statement `data.replace(QLatin1String("'"), QLatin1String("\\'"))`. -/
def escapeQuotes (data : String) : String :=
  String.mk (replaceChar quote [backslash, quote] data.data)

/-- Substitution `QString::arg(a)` on a text whose only place marker is `%1`: every `%1`
is replaced by `a`, and `a` itself is not scanned. -/
def argChars (a : List Char) : List Char → List Char
  | [] => []
  | [c] => [c]
  | c :: d :: rest =>
    if c = '%' ∧ d = '1' then a ++ argChars a rest
    else c :: argChars a (d :: rest)

/-- Place-marker substitution `source.arg(a)`. -/
def QString.arg (source a : String) : String :=
  String.mk (argChars a.data source.data)

/-- The script text of `completePage`, the adjacent literals of the source joined. -/
def completePageSource : String :=
  "(function() \x7b" ++
  "var data = \x27%1\x27.split(\x27&\x27);" ++
  "var inputs = document.getElementsByTagName(\x27input\x27);" ++
  "" ++
  "for (var i = 0; i < data.length; ++i) \x7b" ++
  "    var pair = data[i].split(\x27=\x27);" ++
  "    if (pair.length != 2)" ++
  "        continue;" ++
  "    var key = decodeURIComponent(pair[0]);" ++
  "    var val = decodeURIComponent(pair[1]);" ++
  "    for (var j = 0; j < inputs.length; ++j) \x7b" ++
  "        var input = inputs[j];" ++
  "        var type = input.type.toLowerCase();" ++
  "        if (type != \x27text\x27 && type != \x27password\x27 && type != \x27email\x27)" ++
  "            continue;" ++
  "        if (input.name == key)" ++
  "            input.value = val;" ++
  "    \x7d" ++
  "\x7d" ++
  "" ++
  "\x7d)()"

/-- Text of the script up to and including the quote that opens the `%1` literal. -/
def scriptHead : String :=
  "(function() \x7bvar data = \x27"

/-- Text of the script from the quote that closes the `%1` literal onwards. -/
def scriptTail : String :=
  "\x27.split(\x27&\x27);" ++
  "var inputs = document.getElementsByTagName(\x27input\x27);" ++
  "for (var i = 0; i < data.length; ++i) \x7b" ++
  "    var pair = data[i].split(\x27=\x27);" ++
  "    if (pair.length != 2)" ++
  "        continue;" ++
  "    var key = decodeURIComponent(pair[0]);" ++
  "    var val = decodeURIComponent(pair[1]);" ++
  "    for (var j = 0; j < inputs.length; ++j) \x7b" ++
  "        var input = inputs[j];" ++
  "        var type = input.type.toLowerCase();" ++
  "        if (type != \x27text\x27 && type != \x27password\x27 && type != \x27email\x27)" ++
  "            continue;" ++
  "        if (input.name == key)" ++
  "            input.value = val;" ++
  "    \x7d" ++
  "\x7d" ++
  "\x7d)()"

/-- Transcription of `AutoFill::completePage`: the returned list and the page after the
call. A null `page` is `none`. -/
def AutoFill.completePage (af : AutoFill) (db : ExceptionStore) (page : Option WebPage)
    (frameUrl : QUrl) : List PasswordEntry × Option WebPage :=
  let list : List PasswordEntry := []
  if page.isNone || !af.isStored db frameUrl then
    (list, page)
  else
    let list := af.getFormData frameUrl
    match list with
    | [] => (list, page)
    | entry :: _ =>
      let source := completePageSource
      let data := entry.data
      let data := escapeQuotes data
      (list, page.map (fun p =>
        p.runJavaScript (QString.arg source data) ScriptWorld.ApplicationWorld))

/-- Number of consecutive backslashes that stand immediately before position `i`. -/
def backslashesBefore (s : List Char) (i : Nat) : Nat :=
  ((s.take i).reverse.takeWhile (fun c => c == backslash)).length

/-! ## Concrete instances -/

/-- A frame on host `x.com`. -/
def xcomUrl : QUrl := ⟨"x.com", "https://x.com/login"⟩

/-- A frame whose URL has no host component. -/
def localFileUrl : QUrl := ⟨"", "file:///home/u/login.html"⟩

/-- The empty URL. -/
def emptyUrl : QUrl := ⟨"", ""⟩

/-- An exception table that answers queries and holds no row. -/
def noExceptions : ExceptionStore := ⟨[], true⟩

/-- A page with nothing added to it yet. -/
def freshPage : WebPage := ⟨[], []⟩

/-- A password manager that holds `entries` for every frame and leaves the last-used time
of the entry it is given as it is. -/
def managerHolding (entries : List PasswordEntry) : PasswordManager :=
  ⟨fun _ => entries, fun e => e.updated⟩

/-- An orchestrator with the storing flag on over `managerHolding entries`. -/
def autoFillHolding (entries : List PasswordEntry) : AutoFill :=
  ⟨managerHolding entries, true⟩

/-- The stored entry of the scenario: host `x.com`, username `a`, password `p1`. -/
def entryP1 : PasswordEntry :=
  { host := "x.com", username := "a", password := "p1", data := "user=a&pass=p1" }

/-- A second entry with the same username `a` and the password `p2`. -/
def entryP2 : PasswordEntry :=
  { host := "x.com", username := "a", password := "p2", data := "user=a&pass=p2" }

/-- The submitted form of the scenario: username `a`, password `p2`. -/
def formP2 : PageFormData := ⟨"a", "p2", "user=a&pass=p2"⟩

/-- A submitted form with username `b`. -/
def formB : PageFormData := ⟨"b", "q", "user=b&pass=q"⟩

/-- An entry whose only non-empty string is its password. -/
def bareEntry : PasswordEntry := { password := "x" }

/-- A submitted form whose three strings are empty. -/
def bareForm : PageFormData := ⟨"", "", ""⟩

/-- An entry whose form data is a backslash followed by a single quote. -/
def backslashQuoteEntry : PasswordEntry :=
  { host := "x.com", username := "a", password := "p1",
    data := String.mk [backslash, quote] }

/-- An entry whose form data contains a single quote. -/
def quotedEntry : PasswordEntry :=
  { host := "x.com", username := "a", password := "p1",
    data := String.mk ['u', '=', quote, 'a'] }

/-! ## Helper lemmas -/

theorem isEmpty_eq_decide (s : String) : s.isEmpty = decide (s = "") := by
  rw [Bool.eq_iff_iff]
  simp [String.isEmpty_iff]

theorem argChars_of_not_mem (a : List Char) :
    ∀ l : List Char, '%' ∉ l → argChars a l = l
  | [], _ => rfl
  | [c], _ => rfl
  | c :: d :: rest, h => by
    have hc : c ≠ '%' := fun e => h (by simp [e])
    have hr : '%' ∉ d :: rest := fun m => h (List.mem_cons_of_mem _ m)
    simp only [argChars, hc, false_and, if_false, argChars_of_not_mem a (d :: rest) hr]

theorem argChars_marker (a post : List Char) :
    ∀ pre : List Char, '%' ∉ pre →
      argChars a (pre ++ '%' :: '1' :: post) = pre ++ a ++ argChars a post
  | [], _ => by simp [argChars]
  | c :: pre, h => by
    have hc : c ≠ '%' := fun e => h (by simp [e])
    have hr : '%' ∉ pre := fun m => h (List.mem_cons_of_mem _ m)
    have ih := argChars_marker a post pre hr
    cases pre with
    | nil => simp [argChars, hc] at ih ⊢
    | cons d pre =>
      simp only [List.cons_append, argChars, hc, false_and, if_false]
      simpa using ih

set_option maxRecDepth 100000 in
theorem completePageSource_split :
    completePageSource.data = scriptHead.data ++ '%' :: '1' :: scriptTail.data := by
  decide

set_option maxRecDepth 100000 in
theorem scriptHead_no_marker : '%' ∉ scriptHead.data := by decide

set_option maxRecDepth 100000 in
theorem scriptTail_no_marker : '%' ∉ scriptTail.data := by decide

/-- The script handed to the page is the fixed text with the argument standing between
the two quotes of the `%1` literal. -/
theorem arg_completePageSource (a : String) :
    QString.arg completePageSource a = scriptHead ++ a ++ scriptTail := by
  unfold QString.arg
  rw [completePageSource_split, argChars_marker _ _ _ scriptHead_no_marker,
    argChars_of_not_mem _ _ scriptTail_no_marker]
  apply String.ext
  simp [String.data_append]

/-- The inline computation of `server` in both exception-list routines is the spec's
canonical host. -/
theorem server_eq_canonicalHost (u : QUrl) :
    (if u.host.isEmpty then u.toString else u.host) = canonicalHost u := by
  unfold canonicalHost
  rw [isEmpty_eq_decide]
  by_cases h : u.host = "" <;> simp [h]

theorem isStoringEnabled_eq (af : AutoFill) (db : ExceptionStore) (u : QUrl) :
    af.isStoringEnabled db u =
      (af.m_isStoring &&
        match db.selectCount (canonicalHost u) with
        | none => false
        | some count => decide (count ≤ 0)) := by
  unfold AutoFill.isStoringEnabled
  simp only [server_eq_canonicalHost]
  cases af.m_isStoring <;> simp

theorem isStored_eq (af : AutoFill) (db : ExceptionStore) (u : QUrl) :
    af.isStored db u = (af.isStoringEnabled db u && !(af.m_manager.getEntries u).isEmpty) := by
  unfold AutoFill.isStored
  cases af.isStoringEnabled db u <;> simp

theorem saveFormLoop_same (af : AutoFill) (f : PageFormData) (ud e : PasswordEntry) :
    ∀ l : List PasswordEntry,
      l.find? (fun d => d.username == f.username) = some e → e.password = f.password →
      af.saveFormLoop f ud l = LoopExit.returned [StoreCall.updateLastUsed e]
  | [], h, _ => by simp at h
  | d :: l, h, hp => by
    by_cases hd : d.username = f.username
    · have : d = e := by simpa [List.find?_cons, hd] using h
      subst this
      simp [AutoFill.saveFormLoop, hd, hp]
    · have : l.find? (fun d => d.username == f.username) = some e := by
        simpa [List.find?_cons, hd] using h
      simp [AutoFill.saveFormLoop, hd, saveFormLoop_same af f ud e l this hp]

theorem saveFormLoop_changed (af : AutoFill) (f : PageFormData) (ud e : PasswordEntry) :
    ∀ l : List PasswordEntry,
      l.find? (fun d => d.username == f.username) = some e → e.password ≠ f.password →
      af.saveFormLoop f ud l =
        LoopExit.finished
          { host := e.host, username := f.username, password := f.password,
            data := f.postData, updated := af.m_manager.lastUsedStamp e }
          [StoreCall.updateLastUsed e]
  | [], h, _ => by simp at h
  | d :: l, h, hp => by
    by_cases hd : d.username = f.username
    · have : d = e := by simpa [List.find?_cons, hd] using h
      subst this
      simp [AutoFill.saveFormLoop, hd, hp, PasswordManager.updateLastUsed]
    · have : l.find? (fun d => d.username == f.username) = some e := by
        simpa [List.find?_cons, hd] using h
      simp [AutoFill.saveFormLoop, hd, saveFormLoop_changed af f ud e l this hp]

theorem saveFormLoop_absent (af : AutoFill) (f : PageFormData) (ud : PasswordEntry) :
    ∀ l : List PasswordEntry, (∀ e ∈ l, e.username ≠ f.username) →
      af.saveFormLoop f ud l = LoopExit.finished ud []
  | [], _ => rfl
  | d :: l, h => by
    have hd : d.username ≠ f.username := h d (List.mem_cons_self _ _)
    have hl : ∀ e ∈ l, e.username ≠ f.username := fun e he => h e (List.mem_cons_of_mem _ he)
    simp [AutoFill.saveFormLoop, hd, saveFormLoop_absent af f ud l hl]

theorem ne_nil_of_find (f : PageFormData) (e : PasswordEntry) (l : List PasswordEntry)
    (h : l.find? (fun d => d.username == f.username) = some e) : l.isEmpty = false := by
  cases l with
  | nil => simp at h
  | cons d l => rfl

/-- In the output of the quote replacement every quote stands right after a backslash. -/
theorem replaceChar_quote_preceded :
    ∀ (l : List Char) (i : Nat),
      (replaceChar quote [backslash, quote] l)[i]? = some quote →
      ∃ j, i = j + 1 ∧ (replaceChar quote [backslash, quote] l)[j]? = some backslash
  | [], i, h => by simp [replaceChar] at h
  | c :: cs, i, h => by
    by_cases hc : c = quote
    · simp only [replaceChar, hc, if_true, List.cons_append, List.nil_append] at h ⊢
      match i, h with
      | 0, h =>
        have hq : backslash = quote := by simpa using h
        exact absurd hq (by decide)
      | 1, _ => exact ⟨0, rfl, rfl⟩
      | k + 2, h =>
        have h2 : (replaceChar quote [backslash, quote] cs)[k]? = some quote := by
          simpa using h
        obtain ⟨j, hj, hb⟩ := replaceChar_quote_preceded cs k h2
        exact ⟨j + 2, by omega, by simpa using hb⟩
    · simp only [replaceChar, hc, if_false] at h ⊢
      match i, h with
      | 0, h => exact absurd (by simpa using h) hc
      | k + 1, h =>
        have h2 : (replaceChar quote [backslash, quote] cs)[k]? = some quote := by
          simpa using h
        obtain ⟨j, hj, hb⟩ := replaceChar_quote_preceded cs k h2
        exact ⟨j + 1, by omega, by simpa using hb⟩

/-- The quote replacement of the code is the character-wise substitution. -/
theorem replaceChar_eq_flatMap (l : List Char) :
    replaceChar quote [backslash, quote] l =
      l.flatMap (fun c => if c = quote then [backslash, quote] else [c]) := by
  induction l with
  | nil => rfl
  | cons c cs ih =>
    by_cases hc : c = quote <;> simp [replaceChar, hc, ih, List.flatMap_cons]

/-! ## Exception list: claims -/

/-- C1: `isStoringEnabled(u)` is true exactly when the global flag is on, the count query
yields a row, and the count for the canonical host of `u` is at most 0; with the flag off
it is false whatever the exception store holds. The canonical host is `u.host()`, or the
full URL string when `u.host()` is empty. -/
theorem isStoringEnabled_iff (af : AutoFill) (db : ExceptionStore) (u : QUrl) :
    (af.isStoringEnabled db u = true ↔
      af.m_isStoring = true ∧
        ∃ count : Int, db.selectCount (canonicalHost u) = some count ∧ count ≤ 0) ∧
    AutoFill.isStoringEnabled { af with m_isStoring := false } db u = false := by
  refine ⟨?_, ?_⟩
  · rw [isStoringEnabled_eq]
    cases hq : db.selectCount (canonicalHost u) with
    | none => simp
    | some count => simp
  · simp [AutoFill.isStoringEnabled]

/-- C2: once the insert issued by `blockStoringForUrl(u)` has been applied to the
exception store, whatever the store held before and whatever key the database gave the
new row, `isStoringEnabled(u)` is false; the insert is keyed by the canonical host of
`u`, the same key the check uses. -/
theorem isStoringEnabled_after_blockStoringForUrl (af : AutoFill) (db : ExceptionStore)
    (rowid : Nat) (u : QUrl) :
    AutoFill.blockStoringForUrl u = SqlQuery.insertException (canonicalHost u) ∧
    af.isStoringEnabled (db.exec rowid (AutoFill.blockStoringForUrl u)) u = false := by
  have hkey : AutoFill.blockStoringForUrl u = SqlQuery.insertException (canonicalHost u) := by
    simp only [AutoFill.blockStoringForUrl, server_eq_canonicalHost]
  refine ⟨hkey, ?_⟩
  rw [hkey, isStoringEnabled_eq]
  cases af.m_isStoring with
  | false => rfl
  | true =>
    cases hx : db.executes with
    | false => simp [ExceptionStore.exec, ExceptionStore.selectCount, hx]
    | true =>
      simp only [ExceptionStore.exec, ExceptionStore.selectCount, hx, if_true,
        List.filter_append, List.length_append, Bool.true_and]
      simp

/-! ## saveForm: claims -/

/-- C3, as stated, at the scenario: with the flag on, no exceptions and the store
holding host `x.com`, username `a`, password `p1`, submitting username `a` with password
`p2` adds one notification, and the password of its draft is `p2`, not `p1`. -/
theorem saveForm_scenario_draft_password_not_p1 :
    ∃ n : AutoFillNotification,
      ((autoFillHolding [entryP1]).saveForm false noExceptions (some freshPage)
          xcomUrl formP2).page = some ⟨[n], []⟩ ∧
      n.updateData.host = "x.com" ∧ n.updateData.username = "a" ∧
      n.updateData.password = "p2" ∧ n.updateData.password ≠ "p1" := by
  refine ⟨⟨xcomUrl, formP2, { entryP1 with password := "p2", data := "user=a&pass=p2" }⟩,
    ?_, ?_, ?_, ?_, ?_⟩ <;> decide

/-- C3, amended: with the flag on, no exceptions, and the credential store holding for
the frame the one entry with host `x.com`, username `a`, password `p1`, `saveForm` with
a submitted form of username `a` and password `p2` adds one notification whose draft has
host `x.com`, username `a` and the submitted password `p2`. -/
theorem saveForm_scenario_draft (af : AutoFill) (db : ExceptionStore) (p : WebPage)
    (u : QUrl) (f : PageFormData) (e : PasswordEntry)
    (hflag : af.m_isStoring = true) (hexec : db.executes = true) (hrows : db.rows = [])
    (hstore : af.m_manager.getEntries u = [e])
    (he : e.host = "x.com" ∧ e.username = "a" ∧ e.password = "p1")
    (hf : f.username = "a" ∧ f.password = "p2") :
    ∃ draft : PasswordEntry,
      (af.saveForm false db (some p) u f).page = some (p.addNotification ⟨u, f, draft⟩) ∧
      draft.host = "x.com" ∧ draft.username = "a" ∧ draft.password = "p2" := by
  obtain ⟨hh, hu, hp⟩ := he
  obtain ⟨fu, fp⟩ := hf
  have hen : af.isStoringEnabled db u = true := by
    rw [isStoringEnabled_eq]
    simp [hflag, ExceptionStore.selectCount, hexec, hrows]
  have hst : af.isStored db u = true := by
    rw [isStored_eq, hen, hstore]; rfl
  have hfind : [e].find? (fun d => d.username == f.username) = some e := by
    simp [List.find?_cons, hu, fu]
  have hne : e.password ≠ f.password := by
    rw [hp, fp]; decide
  refine ⟨{ host := e.host, username := f.username, password := f.password,
            data := f.postData, updated := af.m_manager.lastUsedStamp e }, ?_, hh, fu, fp⟩
  simp [AutoFill.saveForm, hen, hst, AutoFill.getFormData, hstore,
    saveFormLoop_changed af f {} e [e] hfind hne]

/-- Witness of C3, amended, at the scenario itself. -/
theorem saveForm_scenario_draft_witness :
    ∃ draft : PasswordEntry,
      ((autoFillHolding [entryP1]).saveForm false noExceptions (some freshPage)
          xcomUrl formP2).page = some (freshPage.addNotification ⟨xcomUrl, formP2, draft⟩) ∧
      draft.host = "x.com" ∧ draft.username = "a" ∧ draft.password = "p2" :=
  saveForm_scenario_draft (autoFillHolding [entryP1]) noExceptions freshPage xcomUrl
    formP2 entryP1 rfl rfl rfl rfl ⟨rfl, rfl, rfl⟩ ⟨rfl, rfl⟩

/-- C4: outside private browsing, with a page, storing enabled for the frame, and the
first stored entry for the frame with the submitted username also carrying the submitted
password, `saveForm` leaves the page as it was (no notification) and issues exactly one
write to the credential store, `updateLastUsed` on that entry. -/
theorem saveForm_same_password (af : AutoFill) (db : ExceptionStore) (p : WebPage)
    (u : QUrl) (f : PageFormData) (e : PasswordEntry)
    (hen : af.isStoringEnabled db u = true)
    (hfind : (af.m_manager.getEntries u).find? (fun d => d.username == f.username) = some e)
    (hpw : e.password = f.password) :
    af.saveForm false db (some p) u f = ⟨some p, [StoreCall.updateLastUsed e]⟩ := by
  have hst : af.isStored db u = true := by
    rw [isStored_eq, hen, ne_nil_of_find f e _ hfind]; rfl
  simp [AutoFill.saveForm, hen, hst, AutoFill.getFormData,
    saveFormLoop_same af f {} e _ hfind hpw]

/-- Witness of C4: the store holds `a`/`p2` and `a`/`p2` is submitted. -/
theorem saveForm_same_password_witness :
    (autoFillHolding [entryP2]).isStoringEnabled noExceptions xcomUrl = true ∧
    ((autoFillHolding [entryP2]).m_manager.getEntries xcomUrl).find?
      (fun d => d.username == formP2.username) = some entryP2 ∧
    entryP2.password = formP2.password ∧
    (autoFillHolding [entryP2]).saveForm false noExceptions (some freshPage) xcomUrl formP2
      = ⟨some freshPage, [StoreCall.updateLastUsed entryP2]⟩ :=
  ⟨by decide, by decide, by decide,
    saveForm_same_password (autoFillHolding [entryP2]) noExceptions freshPage xcomUrl
      formP2 entryP2 (by decide) (by decide) (by decide)⟩

/-- C5, as stated, fails in two ways. First: the store holds `a`/`p2` and then `a`/`p1`,
so a stored entry has the submitted username `a` and a password other than the submitted
`p2`, yet `saveForm` adds no notification. Second: the stored entry has an empty host and
username, the submitted form is empty, and the draft of the notification is the
default-constructed entry. -/
theorem saveForm_changed_password_fails :
    ((∃ e ∈ (autoFillHolding [entryP2, entryP1]).m_manager.getEntries xcomUrl,
        e.username = formP2.username ∧ e.password ≠ formP2.password) ∧
      (autoFillHolding [entryP2, entryP1]).isStoringEnabled noExceptions xcomUrl = true ∧
      ((autoFillHolding [entryP2, entryP1]).saveForm false noExceptions (some freshPage)
        xcomUrl formP2).page = some freshPage) ∧
    ((∃ e ∈ (autoFillHolding [bareEntry]).m_manager.getEntries emptyUrl,
        e.username = bareForm.username ∧ e.password ≠ bareForm.password) ∧
      (autoFillHolding [bareEntry]).isStoringEnabled noExceptions emptyUrl = true ∧
      ((autoFillHolding [bareEntry]).saveForm false noExceptions (some freshPage)
        emptyUrl bareForm).page
        = some (freshPage.addNotification ⟨emptyUrl, bareForm, {}⟩)) := by
  refine ⟨⟨⟨entryP1, ?_, ?_, ?_⟩, ?_, ?_⟩, ⟨⟨bareEntry, ?_, ?_, ?_⟩, ?_, ?_⟩⟩ <;> decide

/-- C5, amended: outside private browsing, with a page and storing enabled for the frame,
when the first stored entry for the frame with the submitted username has a password
other than the submitted one, `saveForm` adds exactly one notification, carrying the
frame URL, the submitted form data and a draft whose host and username are those of that
entry and whose password and form data are the submitted ones; the draft differs from
the default-constructed entry unless that entry's host and the three submitted strings
are all empty. The one write to the credential store is `updateLastUsed` on that entry. -/
theorem saveForm_changed_password (af : AutoFill) (db : ExceptionStore) (p : WebPage)
    (u : QUrl) (f : PageFormData) (e : PasswordEntry)
    (hen : af.isStoringEnabled db u = true)
    (hfind : (af.m_manager.getEntries u).find? (fun d => d.username == f.username) = some e)
    (hpw : e.password ≠ f.password) :
    ∃ draft : PasswordEntry,
      af.saveForm false db (some p) u f
        = ⟨some (p.addNotification ⟨u, f, draft⟩), [StoreCall.updateLastUsed e]⟩ ∧
      draft.host = e.host ∧ draft.username = e.username ∧
      draft.password = f.password ∧ draft.data = f.postData ∧
      (draft = {} →
        e.host = "" ∧ f.username = "" ∧ f.password = "" ∧ f.postData = "") := by
  have hst : af.isStored db u = true := by
    rw [isStored_eq, hen, ne_nil_of_find f e _ hfind]; rfl
  have hu : e.username = f.username := by
    have := List.find?_some hfind
    simpa using this
  refine ⟨{ host := e.host, username := f.username, password := f.password,
            data := f.postData, updated := af.m_manager.lastUsedStamp e },
    ?_, rfl, hu.symm, rfl, rfl, ?_⟩
  · simp [AutoFill.saveForm, hen, hst, AutoFill.getFormData,
      saveFormLoop_changed af f {} e _ hfind hpw]
  · intro hd
    injection hd with h1 h2 h3 h4 h5
    exact ⟨h1, h2, h3, h4⟩

/-- Witness of C5, amended: the store holds `a`/`p1` and `a`/`p2` is submitted. -/
theorem saveForm_changed_password_witness :
    (autoFillHolding [entryP1]).isStoringEnabled noExceptions xcomUrl = true ∧
    ((autoFillHolding [entryP1]).m_manager.getEntries xcomUrl).find?
      (fun d => d.username == formP2.username) = some entryP1 ∧
    entryP1.password ≠ formP2.password ∧
    ∃ draft : PasswordEntry,
      (autoFillHolding [entryP1]).saveForm false noExceptions (some freshPage) xcomUrl formP2
        = ⟨some (freshPage.addNotification ⟨xcomUrl, formP2, draft⟩),
            [StoreCall.updateLastUsed entryP1]⟩ ∧
      draft.host = entryP1.host ∧ draft.username = entryP1.username ∧
      draft.password = formP2.password ∧ draft.data = formP2.postData ∧
      (draft = {} →
        entryP1.host = "" ∧ formP2.username = "" ∧ formP2.password = "" ∧
          formP2.postData = "") :=
  ⟨by decide, by decide, by decide,
    saveForm_changed_password (autoFillHolding [entryP1]) noExceptions freshPage xcomUrl
      formP2 entryP1 (by decide) (by decide) (by decide)⟩

/-- C6: outside private browsing, with a page and storing enabled for the frame, when no
stored entry for the frame has the submitted username (in particular when nothing is
stored for it), `saveForm` adds exactly one notification, whose draft is the
default-constructed `PasswordEntry`, and issues no write to the credential store. -/
theorem saveForm_new_username (af : AutoFill) (db : ExceptionStore) (p : WebPage)
    (u : QUrl) (f : PageFormData)
    (hen : af.isStoringEnabled db u = true)
    (hnone : ∀ e ∈ af.m_manager.getEntries u, e.username ≠ f.username) :
    af.saveForm false db (some p) u f = ⟨some (p.addNotification ⟨u, f, {}⟩), []⟩ := by
  by_cases hst : af.isStored db u = true
  · simp [AutoFill.saveForm, hen, hst, AutoFill.getFormData,
      saveFormLoop_absent af f {} _ hnone]
  · simp [AutoFill.saveForm, hen, hst]

/-- Witness of C6: the store holds username `a` only and username `b` is submitted. -/
theorem saveForm_new_username_witness :
    (autoFillHolding [entryP1]).isStoringEnabled noExceptions xcomUrl = true ∧
    (∀ e ∈ (autoFillHolding [entryP1]).m_manager.getEntries xcomUrl,
      e.username ≠ formB.username) ∧
    (autoFillHolding [entryP1]).saveForm false noExceptions (some freshPage) xcomUrl formB
      = ⟨some (freshPage.addNotification ⟨xcomUrl, formB, {}⟩), []⟩ :=
  ⟨by decide, by decide,
    saveForm_new_username (autoFillHolding [entryP1]) noExceptions freshPage xcomUrl formB
      (by decide) (by decide)⟩

/-- C7: if private browsing is active, or the page handle is null, or
`isStoringEnabled(frameUrl)` is false, `saveForm` does nothing: the page (null or not)
is as before, so no notification is added, and no write is issued to the credential
store, `updateLastUsed` included. -/
theorem saveForm_noop (af : AutoFill) (privateBrowsing : Bool) (db : ExceptionStore)
    (page : Option WebPage) (u : QUrl) (f : PageFormData)
    (h : privateBrowsing = true ∨ page = none ∨ af.isStoringEnabled db u = false) :
    af.saveForm privateBrowsing db page u f = ⟨page, []⟩ := by
  rcases h with h | h | h
  · simp [AutoFill.saveForm, h]
  · simp [AutoFill.saveForm, h]
  · by_cases hg : (privateBrowsing || page.isNone) = true
    · simp only [AutoFill.saveForm, hg, if_true]
    · simp only [AutoFill.saveForm, hg, h]
      simp

/-- Witness of C7: private browsing with a matching stored entry and a page. -/
theorem saveForm_noop_witness :
    (true = true ∨ some freshPage = none ∨
      (autoFillHolding [entryP1]).isStoringEnabled noExceptions xcomUrl = false) ∧
    (autoFillHolding [entryP1]).saveForm true noExceptions (some freshPage) xcomUrl formP2
      = ⟨some freshPage, []⟩ :=
  ⟨Or.inl rfl,
    saveForm_noop (autoFillHolding [entryP1]) true noExceptions (some freshPage) xcomUrl
      formP2 (Or.inl rfl)⟩

/-! ## completePage: claims -/

/-- C8: for every page, null or not, if the frame is not stored (the credential store
holds no entry for it, or storing is disabled for it), `completePage` returns the empty
list and leaves the page as it was, so no script execution is issued. -/
theorem completePage_not_stored (af : AutoFill) (db : ExceptionStore)
    (page : Option WebPage) (u : QUrl)
    (h : af.m_manager.getEntries u = [] ∨ af.isStoringEnabled db u = false) :
    af.isStored db u = false ∧ af.completePage db page u = ([], page) := by
  have hst : af.isStored db u = false := by
    rw [isStored_eq]
    rcases h with h | h
    · simp [h]
    · simp [h]
  exact ⟨hst, by simp [AutoFill.completePage, hst]⟩

/-- Witness of C8: nothing is stored for the frame. -/
theorem completePage_not_stored_witness :
    ((autoFillHolding []).m_manager.getEntries xcomUrl = [] ∨
      (autoFillHolding []).isStoringEnabled noExceptions xcomUrl = false) ∧
    (autoFillHolding []).isStored noExceptions xcomUrl = false ∧
    (autoFillHolding []).completePage noExceptions (some freshPage) xcomUrl
      = ([], some freshPage) :=
  ⟨Or.inl rfl,
    completePage_not_stored (autoFillHolding []) noExceptions (some freshPage) xcomUrl
      (Or.inl rfl)⟩

/-- C9: for a non-null page and a stored frame whose entries are `e :: rest`,
`completePage` returns the full list and issues exactly one script execution, in the
application world. The script is the fixed text with a parameter between the quotes of
its `%1` literal; the parameter is the form data of the first entry with every single
quote replaced by backslash and quote, so every single quote in the parameter stands
immediately after a backslash. -/
theorem completePage_stored (af : AutoFill) (db : ExceptionStore) (p : WebPage) (u : QUrl)
    (e : PasswordEntry) (rest : List PasswordEntry)
    (hen : af.isStoringEnabled db u = true)
    (hlist : af.m_manager.getEntries u = e :: rest) :
    ∃ param : String,
      af.completePage db (some p) u
        = (e :: rest,
            some { p with scripts := p.scripts ++
              [(scriptHead ++ param ++ scriptTail, ScriptWorld.ApplicationWorld)] }) ∧
      param.data
        = e.data.data.flatMap (fun c => if c = quote then [backslash, quote] else [c]) ∧
      ∀ i : Nat, param.data[i]? = some quote →
        ∃ j : Nat, i = j + 1 ∧ param.data[j]? = some backslash := by
  have hst : af.isStored db u = true := by
    rw [isStored_eq, hen, hlist]; rfl
  refine ⟨escapeQuotes e.data, ?_, replaceChar_eq_flatMap _, ?_⟩
  · simp [AutoFill.completePage, hst, AutoFill.getFormData, hlist,
      arg_completePageSource, WebPage.runJavaScript]
  · intro i hi
    exact replaceChar_quote_preceded e.data.data i hi

/-- Witness of C9: the first of two stored entries has a single quote in its form data. -/
theorem completePage_stored_witness :
    (autoFillHolding [quotedEntry, entryP1]).isStoringEnabled noExceptions xcomUrl = true ∧
    (autoFillHolding [quotedEntry, entryP1]).m_manager.getEntries xcomUrl
      = quotedEntry :: [entryP1] ∧
    ∃ param : String,
      (autoFillHolding [quotedEntry, entryP1]).completePage noExceptions (some freshPage)
          xcomUrl
        = (quotedEntry :: [entryP1],
            some { freshPage with scripts := freshPage.scripts ++
              [(scriptHead ++ param ++ scriptTail, ScriptWorld.ApplicationWorld)] }) ∧
      param.data
        = quotedEntry.data.data.flatMap
            (fun c => if c = quote then [backslash, quote] else [c]) ∧
      ∀ i : Nat, param.data[i]? = some quote →
        ∃ j : Nat, i = j + 1 ∧ param.data[j]? = some backslash :=
  ⟨by decide, rfl,
    completePage_stored (autoFillHolding [quotedEntry, entryP1]) noExceptions freshPage
      xcomUrl quotedEntry [entryP1] (by decide) rfl⟩

/-- C10 at stored form data made of a backslash followed by a single quote: the
parameter that `completePage` puts between the quotes of the `%1` literal is backslash,
backslash, quote, and the quote at position 2 has two backslashes before it, an even
number. -/
theorem completePage_backslash_quote_even :
    (autoFillHolding [backslashQuoteEntry]).completePage noExceptions (some freshPage)
        xcomUrl
      = ([backslashQuoteEntry],
          some ⟨[], [(scriptHead ++ String.mk [backslash, backslash, quote] ++ scriptTail,
            ScriptWorld.ApplicationWorld)]⟩) ∧
    [backslash, backslash, quote][2]? = some quote ∧
    backslashesBefore [backslash, backslash, quote] 2 = 2 ∧
    ¬ Odd (backslashesBefore [backslash, backslash, quote] 2) := by
  have hen : (autoFillHolding [backslashQuoteEntry]).isStoringEnabled noExceptions xcomUrl
      = true := by decide
  have hst : (autoFillHolding [backslashQuoteEntry]).isStored noExceptions xcomUrl
      = true := by decide
  have hesc : escapeQuotes backslashQuoteEntry.data
      = String.mk [backslash, backslash, quote] := by decide
  refine ⟨?_, by decide, by decide, by decide⟩
  simp only [AutoFill.completePage, hst, AutoFill.getFormData, arg_completePageSource]
  simp [autoFillHolding, managerHolding, hesc, WebPage.runJavaScript, freshPage]

end Sn
